import Mathlib

/-!
Verification of the temporal scheduling and calendar-coordinate engine of the
daily-activity-scheduler repository (src/src/daily-activity-scheduler.tsx).

Modelling conventions:
* `"HH:MM"` time strings are represented by the `HHMM` structure holding the
  two numeric fields that `toMinutes` reads (`hhmm.split(":").map(Number)`),
  and `toHHMM` builds.  All minute arithmetic from the source is on JavaScript
  numbers holding integers and is embedded in `Int`.
* Pixel coordinates are real-valued in the source (fractional positions are
  produced by the proportional scaling); they are embedded in `ℚ`.
* JavaScript `%` truncates toward zero; it is embedded as `Int.tmod` on
  integers and as `jsModQ` on rationals.  `Math.floor` division is `Int.fdiv`,
  and `Math.round x` is `⌊x + 1/2⌋`.
* React `setState` calls are embedded as pure state-transition functions; the
  notification side channel is reported as a `Bool`/counter result.
-/

namespace Planner

/-- Numeric content of an `"HH:MM"` string: the two colon-separated fields. -/
structure HHMM where
  hh : Int
  mm : Int
deriving DecidableEq, Repr

/-- Source `toMinutes`: `h * 60 + m` from the two fields of the string. -/
def toMinutes (t : HHMM) : Int := t.hh * 60 + t.mm

/-- Source `toHHMM`: `Math.floor(mins / 60)` and `mins % 60` (truncating). -/
def toHHMM (mins : Int) : HHMM := ⟨Int.fdiv mins 60, Int.tmod mins 60⟩

/-- Source `clamp(v, a, b) = Math.max(a, Math.min(b, v))`. -/
def clamp (v a b : Int) : Int := max a (min b v)

/-- Source `overlapMins`: overlap in minutes between `[a1,a2)` and `[b1,b2)`. -/
def overlapMins (a1 a2 b1 b2 : Int) : Int := max 0 (min a2 b2 - max a1 b1)

/-- Activity record: `{id, title, category, start: "HH:MM", duration}`. -/
structure Activity where
  id : String
  title : String
  category : String
  start : HHMM
  duration : Int
deriving DecidableEq, Repr

/-- Sleep configuration record: `{start: "HH:MM", duration}` in minutes. -/
structure SleepConfig where
  start : HHMM
  duration : Int
deriving DecidableEq, Repr

/-- The constant `DAY_MINUTES = 24 * 60`. -/
def DAY_MINUTES : Int := 24 * 60

/-- Source `nextSleep.startMinutes`: the sleep start if it is still ahead
today (`nowMin <= sleepStartMinutes`), else the same time tomorrow. -/
def nextSleepTime (cfg : SleepConfig) (nowMin : Int) : Int :=
  let sleepStartMinutes := toMinutes cfg.start
  if nowMin ≤ sleepStartMinutes then sleepStartMinutes
  else sleepStartMinutes + 24 * 60

/-- One iteration of the busy-minutes loop in `freeUntilSleep`: the overlap of
one activity with the horizon `[nowMin, horizonB)`, after shifting the
activity by `+24*60` when the horizon ends tomorrow and the raw start is
before `nowMin`. -/
def adjustedOverlap (nowMin horizonB : Int) (a : Activity) : Int :=
  let aStart := toMinutes a.start
  let aEnd := aStart + a.duration
  if horizonB > 24 * 60 ∧ aStart < nowMin then
    overlapMins nowMin horizonB (aStart + 24 * 60) (aEnd + 24 * 60)
  else
    overlapMins nowMin horizonB aStart aEnd

/-- The derived value `sorted`: activities ordered by `toMinutes(start)`. -/
def sortedActivities (acts : List Activity) : List Activity :=
  acts.mergeSort (fun a b => toMinutes a.start ≤ toMinutes b.start)

/-- Source `freeUntilSleep`: walks the sorted activity list accumulating busy
minutes against the horizon `[nowMin, nextSleepTime)`, then clamps
`span - busy` to `[0, span]`. -/
def freeUntilSleep (acts : List Activity) (cfg : SleepConfig) (nowMin : Int) : Int :=
  let horizonA := nowMin
  let horizonB := nextSleepTime cfg nowMin
  let busy := (sortedActivities acts).foldl
    (fun busy a => busy + adjustedOverlap horizonA horizonB a) 0
  let span := max 0 (horizonB - horizonA)
  clamp (span - busy) 0 span

/-- Declarative busy total taken from the specification wording: the sum of
the (shift-adjusted) horizon overlaps of the activities, in list order. -/
def specBusyMinutes (acts : List Activity) (nowMin horizonB : Int) : Int :=
  (acts.map (adjustedOverlap nowMin horizonB)).sum

/-- Busy total as claim C1 words it: only non-Sleep activities contribute. -/
def specBusyMinutesNonSleep (acts : List Activity) (nowMin horizonB : Int) : Int :=
  ((acts.filter (fun a => a.category ≠ "Sleep")).map (adjustedOverlap nowMin horizonB)).sum

/-- Free minutes as claim C1 words them: span minus non-Sleep busy, clamped. -/
def claimedFreeUntilSleep (acts : List Activity) (cfg : SleepConfig) (nowMin : Int) : Int :=
  let horizonB := nextSleepTime cfg nowMin
  let span := max 0 (horizonB - nowMin)
  clamp (span - specBusyMinutesNonSleep acts nowMin horizonB) 0 span

lemma foldl_add_eq_sum (f : Activity → Int) (l : List Activity) (n : Int) :
    l.foldl (fun b a => b + f a) n = n + (l.map f).sum := by
  induction l generalizing n with
  | nil => simp
  | cons a l ih => simp [ih, add_assoc]

/-- The busy fold over the sorted list equals the declarative sum over the
original list: sorting permutes the list and addition is commutative. -/
lemma freeUntilSleep_eq (acts : List Activity) (cfg : SleepConfig) (nowMin : Int) :
    freeUntilSleep acts cfg nowMin =
      clamp (max 0 (nextSleepTime cfg nowMin - nowMin)
              - specBusyMinutes acts nowMin (nextSleepTime cfg nowMin))
        0 (max 0 (nextSleepTime cfg nowMin - nowMin)) := by
  unfold freeUntilSleep specBusyMinutes
  dsimp only
  rw [foldl_add_eq_sum, zero_add]
  congr 2
  exact ((List.mergeSort_perm acts _).map _).sum_eq

/-- The default sleep configuration of the source: `{start: "23:00", duration: 540}`. -/
def defaultSleepConfig : SleepConfig := ⟨⟨23, 0⟩, 540⟩

/-- The derived constant `AWAKE_MINUTES = DAY_MINUTES - sleepConfig.duration`. -/
def awakeMinutes (cfg : SleepConfig) : Int := DAY_MINUTES - cfg.duration

/-- The derived constant `CAL_HEIGHT_PX = AWAKE_MINUTES * (40 / 60)` (pixels). -/
def calHeightPx (cfg : SleepConfig) : ℚ := (awakeMinutes cfg : ℚ) * (40 / 60)

/-- The derived value `sleepStart = toMinutes(sleepConfig.start)`. -/
def sleepStartMin (cfg : SleepConfig) : Int := toMinutes cfg.start

/-- The derived value `sleepEnd = (sleepStart + duration) % DAY_MINUTES`
(JavaScript `%` truncates toward zero, `Int.tmod`). -/
def sleepEndMin (cfg : SleepConfig) : Int :=
  Int.tmod (sleepStartMin cfg + cfg.duration) DAY_MINUTES

/-- Source normalization `((timeMinutes % (24*60)) + (24*60)) % (24*60)`. -/
def normalizeTime (t : Int) : Int :=
  Int.tmod (Int.tmod t (24 * 60) + 24 * 60) (24 * 60)

/-- JavaScript `%` on (rational-valued) numbers: `a - b * trunc (a / b)`. -/
def jsModQ (a b : ℚ) : ℚ :=
  if 0 ≤ a / b then a - b * (⌊a / b⌋ : ℚ) else a - b * (⌈a / b⌉ : ℚ)

/-- JavaScript `Math.round`: half-up rounding, `⌊x + 1/2⌋`. -/
def jsRound (x : ℚ) : Int := ⌊x + 1 / 2⌋

/-- Source `timeToDisplayPosition`: `-1` (the hidden sentinel) during sleep;
otherwise the number of minutes walked since wake-up, clamped to the awake
span and scaled proportionally onto the calendar height.  `scale` is the
shared tail of the source function (the clamp plus the proportional map). -/
def timeToDisplayPosition (cfg : SleepConfig) (timeMinutes : Int) : ℚ :=
  let normalizedTime := normalizeTime timeMinutes
  let s := sleepStartMin cfg
  let e := sleepEndMin cfg
  let scale := fun (minutesFromWakeUp : Int) =>
    ((max 0 (min (awakeMinutes cfg) minutesFromWakeUp) : Int) : ℚ)
      / (awakeMinutes cfg : ℚ) * calHeightPx cfg
  if s < e then
    if s ≤ normalizedTime ∧ normalizedTime < e then -1
    else if e ≤ normalizedTime then scale (normalizedTime - e)
    else scale (normalizedTime + 24 * 60 - e)
  else
    if s ≤ normalizedTime ∨ normalizedTime < e then -1
    else scale (normalizedTime - e)

/-- The sleep-interval membership tests of `timeToDisplayPosition`, one for
each sleep shape (non-wrapping `s < e`, midnight-wrapping otherwise). -/
def inSleepPeriod (cfg : SleepConfig) (m : Int) : Bool :=
  if sleepStartMin cfg < sleepEndMin cfg then
    decide (sleepStartMin cfg ≤ m ∧ m < sleepEndMin cfg)
  else
    decide (sleepStartMin cfg ≤ m ∨ m < sleepEndMin cfg)

/-- Source `displayPositionToTime`: clamp the position ratio to `[0,1]`,
scale by the awake minutes, add to the sleep end time, reduce mod `24*60`. -/
def displayPositionToTime (cfg : SleepConfig) (position : ℚ) : ℚ :=
  let awakeRatio := max 0 (min 1 (position / calHeightPx cfg))
  let minutesFromWakeUp := awakeRatio * (awakeMinutes cfg : ℚ)
  jsModQ ((sleepEndMin cfg : ℚ) + minutesFromWakeUp) (24 * 60)

lemma normalizeTime_eq (m : Int) (h0 : 0 ≤ m) (h1 : m ≤ 1439) :
    normalizeTime m = m := by
  unfold normalizeTime
  rw [Int.tmod_eq_emod h0 (by norm_num)]
  rw [Int.tmod_eq_emod (by omega) (by norm_num)]
  omega

lemma sleepEndMin_eq (cfg : SleepConfig) (h : 0 ≤ sleepStartMin cfg + cfg.duration) :
    sleepEndMin cfg = (sleepStartMin cfg + cfg.duration) % 1440 := by
  unfold sleepEndMin DAY_MINUTES
  rw [Int.tmod_eq_emod h (by norm_num)]
  norm_num

lemma jsModQ_eq_self {a : ℚ} (h0 : 0 ≤ a) (h1 : a < 1440) :
    jsModQ a (24 * 60) = a := by
  unfold jsModQ
  have hb : (0 : ℚ) ≤ a / (24 * 60) := by positivity
  rw [if_pos hb]
  have hfloor : ⌊a / (24 * 60)⌋ = 0 := by
    rw [Int.floor_eq_zero_iff]
    refine ⟨hb, ?_⟩
    rw [div_lt_one (by norm_num)]
    linarith
  rw [hfloor]
  norm_num

lemma jsModQ_eq_sub {a : ℚ} (h0 : 1440 ≤ a) (h1 : a < 2880) :
    jsModQ a (24 * 60) = a - 1440 := by
  unfold jsModQ
  have hb : (0 : ℚ) ≤ a / (24 * 60) := by positivity
  rw [if_pos hb]
  have hfloor : ⌊a / (24 * 60)⌋ = 1 := by
    rw [Int.floor_eq_iff]
    constructor
    · rw [le_div_iff₀ (by norm_num : (0:ℚ) < 24 * 60)]
      push_cast
      linarith
    · rw [div_lt_iff₀ (by norm_num : (0:ℚ) < 24 * 60)]
      push_cast
      linarith
  rw [hfloor]
  norm_num

/-- Feeding `displayPositionToTime` a position built from a wake-up offset
`x` within the awake span inverts the scaling exactly. -/
lemma displayPositionToTime_of_ratio (cfg : SleepConfig)
    (hA : 0 < awakeMinutes cfg) (x : Int) (h0 : 0 ≤ x) (h1 : x ≤ awakeMinutes cfg) :
    displayPositionToTime cfg ((x : ℚ) / (awakeMinutes cfg : ℚ) * calHeightPx cfg)
      = jsModQ ((sleepEndMin cfg : ℚ) + (x : ℚ)) (24 * 60) := by
  have hAq : (0 : ℚ) < (awakeMinutes cfg : ℚ) := by exact_mod_cast hA
  have hCpos : (0 : ℚ) < calHeightPx cfg := by
    unfold calHeightPx
    exact mul_pos hAq (by norm_num)
  have hx0 : (0 : ℚ) ≤ (x : ℚ) / (awakeMinutes cfg : ℚ) :=
    div_nonneg (by exact_mod_cast h0) hAq.le
  have hx1 : (x : ℚ) / (awakeMinutes cfg : ℚ) ≤ 1 :=
    (div_le_one hAq).mpr (by exact_mod_cast h1)
  unfold displayPositionToTime
  dsimp only
  rw [mul_div_cancel_right₀ _ (ne_of_gt hCpos)]
  rw [min_eq_right hx1, max_eq_right hx0]
  rw [div_mul_cancel₀ _ (ne_of_gt hAq)]

/-- C6: for `m` in `[0,1439]`, if `m` is in the sleep interval then
`timeToDisplayPosition` returns the hidden sentinel `-1`; otherwise it is a
non-negative pixel offset and `displayPositionToTime` inverts it exactly. -/
theorem timeToPosition_roundTrip (cfg : SleepConfig) (m : Int)
    (hd0 : 0 < cfg.duration) (hd1 : cfg.duration < 1440)
    (hs0 : 0 ≤ sleepStartMin cfg) (hs1 : sleepStartMin cfg ≤ 1439)
    (hm0 : 0 ≤ m) (hm1 : m ≤ 1439) :
    (inSleepPeriod cfg m = true → timeToDisplayPosition cfg m = -1)
    ∧ (inSleepPeriod cfg m = false →
        0 ≤ timeToDisplayPosition cfg m
        ∧ displayPositionToTime cfg (timeToDisplayPosition cfg m) = (m : ℚ)) := by
  have hAdef : awakeMinutes cfg = 1440 - cfg.duration := by
    unfold awakeMinutes DAY_MINUTES; ring
  have hA : 0 < awakeMinutes cfg := by omega
  have hAq : (0 : ℚ) < (awakeMinutes cfg : ℚ) := by exact_mod_cast hA
  have he := sleepEndMin_eq cfg (by omega)
  have hnorm : normalizeTime m = m := normalizeTime_eq m hm0 hm1
  have hCpos : (0 : ℚ) < calHeightPx cfg := by
    unfold calHeightPx
    exact mul_pos hAq (by norm_num)
  have hscale : ∀ x : Int, 0 ≤ x → x ≤ awakeMinutes cfg →
      0 ≤ ((max 0 (min (awakeMinutes cfg) x) : Int) : ℚ)
            / (awakeMinutes cfg : ℚ) * calHeightPx cfg
      ∧ displayPositionToTime cfg
          (((max 0 (min (awakeMinutes cfg) x) : Int) : ℚ)
            / (awakeMinutes cfg : ℚ) * calHeightPx cfg)
        = jsModQ ((sleepEndMin cfg : ℚ) + (x : ℚ)) (24 * 60) := by
    intro x hx0 hx1
    have hclamp : max 0 (min (awakeMinutes cfg) x) = x := by omega
    rw [hclamp]
    refine ⟨?_, displayPositionToTime_of_ratio cfg hA x hx0 hx1⟩
    have hxq : (0 : ℚ) ≤ (x : ℚ) := by exact_mod_cast hx0
    exact mul_nonneg (div_nonneg hxq hAq.le) hCpos.le
  constructor
  · intro hsleep
    unfold timeToDisplayPosition
    dsimp only
    rw [hnorm]
    unfold inSleepPeriod at hsleep
    by_cases hshape : sleepStartMin cfg < sleepEndMin cfg
    · rw [if_pos hshape] at hsleep ⊢
      rw [if_pos (by exact of_decide_eq_true hsleep)]
    · rw [if_neg hshape] at hsleep ⊢
      rw [if_pos (by exact of_decide_eq_true hsleep)]
  · intro hawake
    unfold inSleepPeriod at hawake
    unfold timeToDisplayPosition
    dsimp only
    rw [hnorm]
    by_cases hshape : sleepStartMin cfg < sleepEndMin cfg
    · rw [if_pos hshape] at hawake ⊢
      have hnotin := of_decide_eq_false hawake
      rw [if_neg hnotin]
      push_neg at hnotin
      by_cases hafter : sleepEndMin cfg ≤ m
      · rw [if_pos hafter]
        obtain ⟨hpos, hrt⟩ := hscale (m - sleepEndMin cfg) (by omega) (by omega)
        refine ⟨hpos, ?_⟩
        rw [hrt]
        have hcast : (sleepEndMin cfg : ℚ) + ((m - sleepEndMin cfg : Int) : ℚ) = (m : ℚ) := by
          push_cast; ring
        rw [hcast]
        exact jsModQ_eq_self (by exact_mod_cast hm0) (by exact_mod_cast (by omega : m < 1440))
      · rw [if_neg hafter]
        have hbefore : m < sleepStartMin cfg := by
          by_contra hc
          push_neg at hc
          exact hafter (hnotin hc)
        obtain ⟨hpos, hrt⟩ := hscale (m + 24 * 60 - sleepEndMin cfg) (by omega) (by omega)
        refine ⟨hpos, ?_⟩
        rw [hrt]
        have hcast : (sleepEndMin cfg : ℚ) + ((m + 24 * 60 - sleepEndMin cfg : Int) : ℚ)
            = ((m + 1440 : Int) : ℚ) := by push_cast; ring
        rw [hcast]
        rw [jsModQ_eq_sub (by exact_mod_cast (by omega : (1440 : Int) ≤ m + 1440))
          (by exact_mod_cast (by omega : m + 1440 < 2880))]
        push_cast
        ring
    · rw [if_neg hshape] at hawake ⊢
      have hnotin := of_decide_eq_false hawake
      push_neg at hnotin
      rw [if_neg (by push_neg; exact hnotin)]
      obtain ⟨hin1, hin2⟩ := hnotin
      obtain ⟨hpos, hrt⟩ := hscale (m - sleepEndMin cfg) (by omega) (by omega)
      refine ⟨hpos, ?_⟩
      rw [hrt]
      have hcast : (sleepEndMin cfg : ℚ) + ((m - sleepEndMin cfg : Int) : ℚ) = (m : ℚ) := by
        push_cast; ring
      rw [hcast]
      exact jsModQ_eq_self (by exact_mod_cast hm0) (by exact_mod_cast (by omega : m < 1440))

/-- C6 witness: with the default configuration, 14:07 (847 minutes) is awake,
gets a non-negative position, and round-trips exactly. -/
theorem timeToPosition_roundTrip_witness :
    inSleepPeriod defaultSleepConfig 847 = false
    ∧ 0 ≤ timeToDisplayPosition defaultSleepConfig 847
    ∧ displayPositionToTime defaultSleepConfig (timeToDisplayPosition defaultSleepConfig 847)
        = (847 : ℚ) := by
  have h := (timeToPosition_roundTrip defaultSleepConfig 847 (by decide) (by decide)
    (by decide) (by decide) (by decide) (by decide)).2 (by decide)
  exact ⟨by decide, h.1, h.2⟩

/-- C10: `displayPositionToTime` is total, always lands in `[0, 1440)`
(the ratio is clamped to `[0,1]` and the result reduced mod a day), and the
bottom edge of the calendar maps exactly to the sleep start. -/
theorem positionToTime_total (cfg : SleepConfig)
    (hd0 : 0 < cfg.duration) (hd1 : cfg.duration < 1440)
    (hs0 : 0 ≤ sleepStartMin cfg) (hs1 : sleepStartMin cfg ≤ 1439) :
    (∀ p : ℚ, 0 ≤ displayPositionToTime cfg p ∧ displayPositionToTime cfg p < 1440)
    ∧ displayPositionToTime cfg (calHeightPx cfg) = (sleepStartMin cfg : ℚ) := by
  have hAdef : awakeMinutes cfg = 1440 - cfg.duration := by
    unfold awakeMinutes DAY_MINUTES; ring
  have hA : 0 < awakeMinutes cfg := by omega
  have hAq : (0 : ℚ) < (awakeMinutes cfg : ℚ) := by exact_mod_cast hA
  have hA1439 : awakeMinutes cfg ≤ 1439 := by omega
  have he := sleepEndMin_eq cfg (by omega)
  have he0 : 0 ≤ sleepEndMin cfg := by omega
  have he1 : sleepEndMin cfg ≤ 1439 := by omega
  have hCpos : (0 : ℚ) < calHeightPx cfg := by
    unfold calHeightPx
    exact mul_pos hAq (by norm_num)
  constructor
  · intro p
    unfold displayPositionToTime
    dsimp only
    set r := max 0 (min 1 (p / calHeightPx cfg)) with hr
    have hr0 : (0 : ℚ) ≤ r := le_max_left 0 _
    have hr1 : r ≤ 1 := max_le (by norm_num) (min_le_left 1 _)
    have hm0 : (0 : ℚ) ≤ r * (awakeMinutes cfg : ℚ) := mul_nonneg hr0 hAq.le
    have hm1 : r * (awakeMinutes cfg : ℚ) ≤ (awakeMinutes cfg : ℚ) := by
      calc r * (awakeMinutes cfg : ℚ) ≤ 1 * (awakeMinutes cfg : ℚ) := by
            exact mul_le_mul_of_nonneg_right hr1 hAq.le
        _ = (awakeMinutes cfg : ℚ) := one_mul _
    have ha0 : (0 : ℚ) ≤ (sleepEndMin cfg : ℚ) + r * (awakeMinutes cfg : ℚ) := by
      have : (0 : ℚ) ≤ (sleepEndMin cfg : ℚ) := by exact_mod_cast he0
      linarith
    have ha1 : (sleepEndMin cfg : ℚ) + r * (awakeMinutes cfg : ℚ) < 2880 := by
      have h1 : (sleepEndMin cfg : ℚ) ≤ 1439 := by exact_mod_cast he1
      have h2 : (awakeMinutes cfg : ℚ) ≤ 1439 := by exact_mod_cast hA1439
      linarith
    by_cases hcase : (sleepEndMin cfg : ℚ) + r * (awakeMinutes cfg : ℚ) < 1440
    · rw [jsModQ_eq_self ha0 hcase]
      exact ⟨ha0, hcase⟩
    · push_neg at hcase
      rw [jsModQ_eq_sub hcase ha1]
      constructor <;> linarith
  · unfold displayPositionToTime
    dsimp only
    rw [div_self (ne_of_gt hCpos)]
    rw [min_eq_right (le_refl (1 : ℚ)), max_eq_right (by norm_num : (0:ℚ) ≤ 1), one_mul]
    have hsum : (sleepEndMin cfg : ℚ) + (awakeMinutes cfg : ℚ)
        = ((sleepEndMin cfg + awakeMinutes cfg : Int) : ℚ) := by push_cast; ring
    rw [hsum]
    rcases (by omega :
        sleepEndMin cfg + awakeMinutes cfg = sleepStartMin cfg + 1440
        ∨ sleepEndMin cfg + awakeMinutes cfg = sleepStartMin cfg) with hcase | hcase
    · rw [hcase]
      rw [jsModQ_eq_sub (by exact_mod_cast (by omega : (1440:Int) ≤ sleepStartMin cfg + 1440))
        (by exact_mod_cast (by omega : sleepStartMin cfg + 1440 < 2880))]
      push_cast
      ring
    · rw [hcase]
      exact jsModQ_eq_self (by exact_mod_cast hs0)
        (by exact_mod_cast (by omega : sleepStartMin cfg < 1440))

/-- C10 witness: the default configuration satisfies the hypotheses; every
position maps into `[0,1440)` and the bottom edge maps to 23:00. -/
theorem positionToTime_total_witness :
    (∀ p : ℚ, 0 ≤ displayPositionToTime defaultSleepConfig p
      ∧ displayPositionToTime defaultSleepConfig p < 1440)
    ∧ displayPositionToTime defaultSleepConfig (calHeightPx defaultSleepConfig)
        = (sleepStartMin defaultSleepConfig : ℚ) :=
  positionToTime_total defaultSleepConfig (by decide) (by decide) (by decide) (by decide)

/-- C8: `nextSleepTime` is the sleep start if `nowMin` has not passed it, else
the sleep start plus a day; equivalently, it is the least instant at or after
`nowMin` that is congruent to the sleep start modulo a day. -/
theorem nextSleepTime_correct (cfg : SleepConfig) (nowMin : Int)
    (hs0 : 0 ≤ toMinutes cfg.start) (hs1 : toMinutes cfg.start ≤ 1439)
    (hn0 : 0 ≤ nowMin) (hn1 : nowMin ≤ 1439) :
    nextSleepTime cfg nowMin =
      (if nowMin ≤ toMinutes cfg.start then toMinutes cfg.start
       else toMinutes cfg.start + 1440)
    ∧ nowMin ≤ nextSleepTime cfg nowMin
    ∧ nextSleepTime cfg nowMin % 1440 = toMinutes cfg.start % 1440
    ∧ ∀ t : Int, nowMin ≤ t → t % 1440 = toMinutes cfg.start % 1440 →
        nextSleepTime cfg nowMin ≤ t := by
  unfold nextSleepTime
  dsimp only
  refine ⟨by norm_num, ?_, ?_, ?_⟩
  · split <;> omega
  · split <;> omega
  · intro t ht htmod
    split <;> omega

/-- C8 witness: at 09:00 with the default configuration the next sleep
occurrence is 23:00 today; at 23:30 it is 23:00 tomorrow. -/
theorem nextSleepTime_correct_witness :
    nextSleepTime defaultSleepConfig 540 =
      (if (540 : Int) ≤ toMinutes defaultSleepConfig.start
       then toMinutes defaultSleepConfig.start
       else toMinutes defaultSleepConfig.start + 1440)
    ∧ (540 : Int) ≤ nextSleepTime defaultSleepConfig 540
    ∧ nextSleepTime defaultSleepConfig 540 % 1440 = toMinutes defaultSleepConfig.start % 1440
    ∧ ∀ t : Int, (540 : Int) ≤ t → t % 1440 = toMinutes defaultSleepConfig.start % 1440 →
        nextSleepTime defaultSleepConfig 540 ≤ t :=
  nextSleepTime_correct defaultSleepConfig 540 (by decide) (by decide) (by decide) (by decide)


/-- The single Sleep-category activity used to refute claim C1 as worded. -/
def c1SleepActivity : Activity := ⟨"s1", "Nap", "Sleep", ⟨10, 0⟩, 60⟩

/-- C1 counterexample: with one Sleep-category activity lying inside the
horizon, the source `freeUntilSleep` counts it as busy (780 free minutes),
while the claim (which exempts Sleep activities) predicts the full span of
840; the two disagree. -/
theorem freeUntilSleep_claim_counterexample :
    freeUntilSleep [c1SleepActivity] defaultSleepConfig 540 = 780
    ∧ claimedFreeUntilSleep [c1SleepActivity] defaultSleepConfig 540 = 840
    ∧ freeUntilSleep [c1SleepActivity] defaultSleepConfig 540
        ≠ claimedFreeUntilSleep [c1SleepActivity] defaultSleepConfig 540 := by
  rw [freeUntilSleep_eq]
  refine ⟨by decide, by decide, by decide⟩

/-- C1 (amended: every activity contributes, Sleep-category ones included):
`freeUntilSleep` is the horizon span minus the summed shift-adjusted busy
minutes of all activities, clamped to `[0, span]`; the span is exactly
`nextSleepTime - nowMin`; with no activities the free time is the whole
span; and without clamping free plus busy equals the span. -/
theorem freeUntilSleep_spec (acts : List Activity) (cfg : SleepConfig) (nowMin : Int)
    (hd0 : 0 < cfg.duration) (hd1 : cfg.duration < 1440)
    (hs0 : 0 ≤ toMinutes cfg.start) (hs1 : toMinutes cfg.start ≤ 1439)
    (hn0 : 0 ≤ nowMin) (hn1 : nowMin ≤ 1439) :
    freeUntilSleep acts cfg nowMin
      = clamp (max 0 (nextSleepTime cfg nowMin - nowMin)
                - specBusyMinutes acts nowMin (nextSleepTime cfg nowMin))
          0 (max 0 (nextSleepTime cfg nowMin - nowMin))
    ∧ max 0 (nextSleepTime cfg nowMin - nowMin) = nextSleepTime cfg nowMin - nowMin
    ∧ freeUntilSleep [] cfg nowMin = nextSleepTime cfg nowMin - nowMin
    ∧ (0 ≤ specBusyMinutes acts nowMin (nextSleepTime cfg nowMin) →
        specBusyMinutes acts nowMin (nextSleepTime cfg nowMin)
          ≤ nextSleepTime cfg nowMin - nowMin →
        freeUntilSleep acts cfg nowMin
          + specBusyMinutes acts nowMin (nextSleepTime cfg nowMin)
          = nextSleepTime cfg nowMin - nowMin) := by
  have hspan : nowMin ≤ nextSleepTime cfg nowMin := by
    unfold nextSleepTime
    dsimp only
    split <;> omega
  refine ⟨freeUntilSleep_eq acts cfg nowMin, by omega, ?_, ?_⟩
  · rw [freeUntilSleep_eq]
    have hnil : specBusyMinutes [] nowMin (nextSleepTime cfg nowMin) = 0 := rfl
    rw [hnil]
    unfold clamp
    omega
  · intro hb0 hb1
    rw [freeUntilSleep_eq]
    unfold clamp
    omega

/-- C1 witness, the scenario of the specification: sleep `23:00` for 540
minutes, one Work activity `09:30` for 480 minutes, `now = 09:00`; the code
reports 360 free minutes, matching the clamped span-minus-busy form. -/
theorem freeUntilSleep_spec_witness :
    freeUntilSleep [⟨"w1", "Work", "Work", ⟨9, 30⟩, 480⟩] defaultSleepConfig 540 = 360
    ∧ specBusyMinutes [⟨"w1", "Work", "Work", ⟨9, 30⟩, 480⟩] 540
        (nextSleepTime defaultSleepConfig 540) = 480 := by
  have h := (freeUntilSleep_spec [⟨"w1", "Work", "Work", ⟨9, 30⟩, 480⟩]
    defaultSleepConfig 540 (by decide) (by decide) (by decide) (by decide)
    (by decide) (by decide)).1
  exact ⟨h.trans (by decide), by decide⟩

/-- The shadow preview stored by the drag resolver: `{top, startTime}`. -/
structure ShadowPos where
  top : ℚ
  startTime : HHMM
deriving DecidableEq, Repr

/-- The drag-and-drop interaction state object. -/
structure DragState where
  isDragging : Bool
  draggedActivity : Option Activity
  dragOffsetX : ℚ
  dragOffsetY : ℚ
  startY : ℚ
  shadowPosition : Option ShadowPos
  currentMouseY : ℚ
  justFinishedDrag : Bool
  hasMoved : Bool
deriving DecidableEq, Repr

/-- The initial drag state of the component. -/
def initialDragState : DragState := ⟨false, none, 0, 0, 0, none, 0, false, false⟩

/-- The three snapped-time lines shared by `onDragMove` and
`onCalendarClick`: `Math.round(t / 15) * 15`, clamped to `[0, 23*60+45]`. -/
def snapClamp (t : ℚ) : Int := max 0 (min (23 * 60 + 45) (jsRound (t / 15) * 15))

/-- Source `onDragStart`: records the dragged activity, the pointer offsets
against the activity block, and seeds the shadow with the original position.
The `hasMoved` and `justFinishedDrag` keys are absent from the object the
source stores here, hence falsy. -/
def onDragStart (cfg : SleepConfig) (activity : Activity)
    (clientX clientY blockLeft blockTop : ℚ) : DragState where
  isDragging := true
  draggedActivity := some activity
  dragOffsetX := clientX - blockLeft
  dragOffsetY := clientY - blockTop
  startY := clientY
  shadowPosition := some ⟨timeToDisplayPosition cfg (toMinutes activity.start), activity.start⟩
  currentMouseY := clientY
  justFinishedDrag := false
  hasMoved := false

/-- Source `onDragMove`: ignores the event unless dragging; past the 3px
threshold it marks `hasMoved` and republishes the snapped shadow computed
from the pointer position minus the press offset. -/
def onDragMove (cfg : SleepConfig) (ds : DragState) (clientY calTop : ℚ) : DragState :=
  if ds.isDragging = false then ds
  else
    let moveDistance := |clientY - ds.startY|
    let ds1 := if 3 < moveDistance then { ds with hasMoved := true } else ds
    if 3 < moveDistance then
      let mouseRelativeToCalendar := clientY - calTop
      let activityTopRelativeToCalendar := mouseRelativeToCalendar - ds.dragOffsetY
      let newTimeMinutes := displayPositionToTime cfg activityTopRelativeToCalendar
      let clampedMinutes := snapClamp newTimeMinutes
      { ds1 with
          currentMouseY := clientY,
          shadowPosition := some ⟨timeToDisplayPosition cfg clampedMinutes, toHHMM clampedMinutes⟩ }
    else ds1

/-- The reset object written by `onDragEnd` (with `justFinishedDrag: true`). -/
def resetDragState : DragState := ⟨false, none, 0, 0, 0, none, 0, true, false⟩

/-- Source `onDragEnd`: past the threshold and with a shadow present, commit
the shadow start time to the dragged activity; otherwise treat the gesture
as a click and emit an edit intent (second component). -/
def onDragEnd (ds : DragState) (acts : List Activity) :
    List Activity × Option Activity × DragState :=
  if ds.isDragging = false then (acts, none, ds)
  else
    match ds.draggedActivity with
    | none => (acts, none, resetDragState)
    | some dragged =>
      match ds.hasMoved, ds.shadowPosition with
      | true, some sp =>
          (acts.map (fun a => if a.id = dragged.id then { a with start := sp.startTime } else a),
            none, resetDragState)
      | _, _ => (acts, some dragged, resetDragState)

/-- Source `onCalendarClick`: suppressed right after a drag or on an activity
block; otherwise appends a 15-minute Quick Task at the snapped click time. -/
def onCalendarClick (cfg : SleepConfig) (acts : List Activity)
    (justFinishedDrag targetClosestButton : Bool) (clientY calTop : ℚ)
    (newId : String) : List Activity :=
  if justFinishedDrag || targetClosestButton then acts
  else
    let clickY := clientY - calTop
    let clickTimeMinutes := displayPositionToTime cfg clickY
    let clampedMinutes := snapClamp clickTimeMinutes
    let clickTime := toHHMM clampedMinutes
    acts ++ [⟨newId, "Quick Task", "Other", clickTime, 15⟩]

/-- The last pointer-move position whose displacement from `startY` exceeded
the 3px threshold, if any. -/
def lastExceeding (startY : ℚ) : List ℚ → Option ℚ
  | [] => none
  | y :: ys =>
    match lastExceeding startY ys with
    | some z => some z
    | none => if 3 < |y - startY| then some y else none

lemma lastExceeding_cons (s y : ℚ) (ys : List ℚ) :
    lastExceeding s (y :: ys) =
      match lastExceeding s ys with
      | some z => some z
      | none => if 3 < |y - s| then some y else none := rfl

lemma lastExceeding_none_iff (s : ℚ) (ys : List ℚ) :
    lastExceeding s ys = none ↔ ∀ y ∈ ys, |y - s| ≤ 3 := by
  induction ys with
  | nil => simp [lastExceeding]
  | cons y ys ih =>
    rw [lastExceeding_cons]
    cases htail : lastExceeding s ys with
    | some z =>
      simp only [htail]
      constructor
      · intro habs; exact absurd habs (by simp)
      · intro hall
        have : lastExceeding s ys = none :=
          ih.mpr (fun w hw => hall w (List.mem_cons_of_mem y hw))
        rw [this] at htail
        exact absurd htail (by simp)
    | none =>
      simp only [htail]
      by_cases hq : 3 < |y - s|
      · rw [if_pos hq]
        constructor
        · intro habs; exact absurd habs (by simp)
        · intro hall
          exact absurd (hall y (List.mem_cons_self y ys)) (not_le.mpr hq)
      · rw [if_neg hq]
        simp only [true_iff, iff_true]
        intro w hw
        rcases List.mem_cons.mp hw with hw | hw
        · subst hw; exact not_lt.mp hq
        · exact (ih.mp htail) w hw

/-- The shadow written by a qualifying pointer move at position `yq`. -/
def dragShadow (cfg : SleepConfig) (dragOffsetY calTop yq : ℚ) : ShadowPos :=
  let clampedMinutes := snapClamp (displayPositionToTime cfg (yq - calTop - dragOffsetY))
  ⟨timeToDisplayPosition cfg clampedMinutes, toHHMM clampedMinutes⟩

/-- Running `onDragMove` over a pointer-move sequence leaves the state
untouched when no move crosses the threshold, and otherwise marks
`hasMoved` and stores the shadow of the last threshold-crossing move. -/
lemma onDragMove_foldl (cfg : SleepConfig) (calTop : ℚ) (ys : List ℚ) :
    ∀ ds : DragState, ds.isDragging = true →
      ys.foldl (fun d y => onDragMove cfg d y calTop) ds =
        match lastExceeding ds.startY ys with
        | none => ds
        | some yq =>
            { ds with
                hasMoved := true
                currentMouseY := yq
                shadowPosition := some (dragShadow cfg ds.dragOffsetY calTop yq) } := by
  induction ys with
  | nil => intro ds _; simp [lastExceeding]
  | cons y ys ih =>
    intro ds hds
    rw [List.foldl_cons, lastExceeding_cons]
    by_cases hq : 3 < |y - ds.startY|
    · have hstep : onDragMove cfg ds y calTop =
          { ds with
              hasMoved := true
              currentMouseY := y
              shadowPosition := some (dragShadow cfg ds.dragOffsetY calTop y) } := by
        unfold onDragMove dragShadow
        rw [if_neg (by simp [hds]), if_pos hq, if_pos hq]
      rw [hstep, ih (DragState.mk ds.isDragging ds.draggedActivity ds.dragOffsetX ds.dragOffsetY ds.startY (some (dragShadow cfg ds.dragOffsetY calTop y)) y ds.justFinishedDrag true) hds]
      dsimp only
      cases htail : lastExceeding ds.startY ys with
      | none => simp only [htail, if_pos hq]
      | some z => simp only [htail]
    · have hstep : onDragMove cfg ds y calTop = ds := by
        unfold onDragMove
        rw [if_neg (by simp [hds]), if_neg hq, if_neg hq]
      rw [hstep, ih ds hds]
      cases htail : lastExceeding ds.startY ys with
      | none => simp only [htail, if_neg hq]
      | some z => simp only [htail]

/-- One full pointer-down / pointer-move sequence on an activity block:
`onDragStart` followed by the `onDragMove` handler for each move event. -/
def dragRun (cfg : SleepConfig) (a : Activity)
    (clientX clientY blockLeft blockTop calTop : ℚ) (ys : List ℚ) : DragState :=
  ys.foldl (fun d y => onDragMove cfg d y calTop)
    (onDragStart cfg a clientX clientY blockLeft blockTop)

/-- C2: a gesture that never exceeds the 3px threshold resolves on pointer-up
to an edit intent for the pressed activity with the activity list unchanged;
a gesture that exceeds it commits, for the dragged activity only, the start
produced by snapping the last proposed position to the 15-minute grid and
clamping to `[00:00, 23:45]`, leaving ids, titles, categories and durations
of every activity unchanged. -/
theorem dragGesture_resolution (cfg : SleepConfig) (a : Activity) (acts : List Activity)
    (clientX clientY blockLeft blockTop calTop : ℚ) (ys : List ℚ) :
    ((∀ y ∈ ys, |y - clientY| ≤ 3) →
      (onDragEnd (dragRun cfg a clientX clientY blockLeft blockTop calTop ys) acts).1 = acts
      ∧ (onDragEnd (dragRun cfg a clientX clientY blockLeft blockTop calTop ys) acts).2.1
          = some a)
    ∧ (∀ yq, lastExceeding clientY ys = some yq →
        (onDragEnd (dragRun cfg a clientX clientY blockLeft blockTop calTop ys) acts).2.1 = none
        ∧ (onDragEnd (dragRun cfg a clientX clientY blockLeft blockTop calTop ys) acts).1
            = acts.map (fun b => if b.id = a.id then { b with start := toHHMM (snapClamp (displayPositionToTime cfg (yq - calTop - (clientY - blockTop)))) } else b)
        ∧ (∃ k : Int, snapClamp (displayPositionToTime cfg (yq - calTop - (clientY - blockTop)))
              = 15 * k ∧ 0 ≤ 15 * k ∧ 15 * k ≤ 23 * 60 + 45)
        ∧ (onDragEnd (dragRun cfg a clientX clientY blockLeft blockTop calTop ys) acts).1.map
              (fun b => (b.id, b.title, b.category, b.duration))
            = acts.map (fun b => (b.id, b.title, b.category, b.duration)))
    ∧ ((∃ y ∈ ys, 3 < |y - clientY|) ↔ (lastExceeding clientY ys).isSome = true) := by
  have hrun := onDragMove_foldl cfg calTop ys
    (onDragStart cfg a clientX clientY blockLeft blockTop) rfl
  have hsY : (onDragStart cfg a clientX clientY blockLeft blockTop).startY = clientY := rfl
  have hOff : (onDragStart cfg a clientX clientY blockLeft blockTop).dragOffsetY
      = clientY - blockTop := rfl
  rw [hsY, hOff] at hrun
  refine ⟨?_, ?_, ?_⟩
  · intro hall
    have hnone : lastExceeding clientY ys = none := (lastExceeding_none_iff clientY ys).mpr hall
    rw [hnone] at hrun
    unfold dragRun
    rw [hrun]
    exact ⟨rfl, rfl⟩
  · intro yq hyq
    rw [hyq] at hrun
    have hone : onDragEnd (dragRun cfg a clientX clientY blockLeft blockTop calTop ys) acts
        = (acts.map (fun b => if b.id = a.id then { b with start := toHHMM (snapClamp (displayPositionToTime cfg (yq - calTop - (clientY - blockTop)))) } else b),
           none, resetDragState) := by
      unfold dragRun
      rw [hrun]
      rfl
    refine ⟨by rw [hone], by rw [hone], ?_, ?_⟩
    · refine ⟨max 0 (min 95 (jsRound (displayPositionToTime cfg (yq - calTop - (clientY - blockTop)) / 15))), ?_, ?_, ?_⟩
      · unfold snapClamp
        omega
      · omega
      · omega
    · rw [hone, List.map_map]
      apply List.map_congr_left
      intro b _
      by_cases hb : b.id = a.id <;> simp [hb]
  · constructor
    · rintro ⟨y, hy, hgt⟩
      by_contra h
      have hnone := Option.not_isSome_iff_eq_none.mp (by simpa using h)
      exact absurd ((lastExceeding_none_iff clientY ys).mp hnone y hy) (not_le.mpr hgt)
    · intro h
      by_contra hne
      push_neg at hne
      have : lastExceeding clientY ys = none :=
        (lastExceeding_none_iff clientY ys).mpr (fun y hy => hne y hy)
      rw [this] at h
      simp at h

/-- C2 witness: a press with no pointer movement resolves to an edit intent
for the pressed activity and leaves the committed list unchanged. -/
theorem dragGesture_resolution_witness :
    (onDragEnd (dragRun defaultSleepConfig ⟨"w1", "Work", "Work", ⟨9, 30⟩, 480⟩ 0 100 0 90 0 [])
        [⟨"w1", "Work", "Work", ⟨9, 30⟩, 480⟩]).1 = [⟨"w1", "Work", "Work", ⟨9, 30⟩, 480⟩]
    ∧ (onDragEnd (dragRun defaultSleepConfig ⟨"w1", "Work", "Work", ⟨9, 30⟩, 480⟩ 0 100 0 90 0 [])
        [⟨"w1", "Work", "Work", ⟨9, 30⟩, 480⟩]).2.1 = some ⟨"w1", "Work", "Work", ⟨9, 30⟩, 480⟩ :=
  (dragGesture_resolution defaultSleepConfig ⟨"w1", "Work", "Work", ⟨9, 30⟩, 480⟩
    [⟨"w1", "Work", "Work", ⟨9, 30⟩, 480⟩] 0 100 0 90 0 []).1 (by simp)

/-- `Math.round` returns a nearest integer: no integer is strictly closer. -/
lemma jsRound_nearest (x : ℚ) (k : Int) :
    |(jsRound x : ℚ) - x| ≤ |(k : ℚ) - x| := by
  unfold jsRound
  have h1 : ((⌊x + 1 / 2⌋ : Int) : ℚ) ≤ x + 1 / 2 := Int.floor_le _
  have h2 : x + 1 / 2 < ((⌊x + 1 / 2⌋ : Int) : ℚ) + 1 := Int.lt_floor_add_one _
  have hr : |((⌊x + 1 / 2⌋ : Int) : ℚ) - x| ≤ 1 / 2 := by
    rw [abs_le]
    constructor <;> linarith
  by_cases hk : k = ⌊x + 1 / 2⌋
  · subst hk; exact le_refl _
  · have hk1 : (1 : ℚ) ≤ |(k : ℚ) - (⌊x + 1 / 2⌋ : Int)| := by
      have h1le : (1 : Int) ≤ |k - ⌊x + 1 / 2⌋| := by
        rcases le_or_lt 0 (k - ⌊x + 1 / 2⌋) with hc | hc
        · rw [abs_of_nonneg hc]; omega
        · rw [abs_of_neg hc]; omega
      exact_mod_cast h1le
    have htri : |(k : ℚ) - (⌊x + 1 / 2⌋ : Int)| ≤ |(k : ℚ) - x| + |x - ((⌊x + 1 / 2⌋ : Int) : ℚ)| := by
      calc |(k : ℚ) - (⌊x + 1 / 2⌋ : Int)|
          = |((k : ℚ) - x) + (x - ((⌊x + 1 / 2⌋ : Int) : ℚ))| := by ring_nf
        _ ≤ |(k : ℚ) - x| + |x - ((⌊x + 1 / 2⌋ : Int) : ℚ)| := abs_add _ _
    have habs : |x - ((⌊x + 1 / 2⌋ : Int) : ℚ)| = |((⌊x + 1 / 2⌋ : Int) : ℚ) - x| :=
      abs_sub_comm _ _
    linarith
/-- Snapping to the 15-minute grid lands on a nearest grid line. -/
lemma snap_nearest (t : ℚ) (k : Int) :
    |((jsRound (t / 15) * 15 : Int) : ℚ) - t| ≤ |((15 * k : Int) : ℚ) - t| := by
  have h := jsRound_nearest (t / 15) k
  have e1 : ((jsRound (t / 15) * 15 : Int) : ℚ) - t
      = 15 * ((jsRound (t / 15) : ℚ) - t / 15) := by push_cast; ring
  have e2 : ((15 * k : Int) : ℚ) - t = 15 * ((k : ℚ) - t / 15) := by push_cast; ring
  rw [e1, e2, abs_mul, abs_mul]
  have h15 : |(15 : ℚ)| = 15 := by norm_num
  rw [h15]
  exact mul_le_mul_of_nonneg_left h (by norm_num)

/-- C9: a click on empty calendar space outside the post-drag suppression
window appends one activity titled Quick Task, category Other, duration 15,
whose start is the click time snapped to a nearest 15-minute grid line and
clamped to at most 23:45. -/
theorem quickAdd_creates_activity (cfg : SleepConfig) (acts : List Activity)
    (jfd onButton : Bool) (clientY calTop : ℚ) (newId : String)
    (h1 : jfd = false) (h2 : onButton = false) :
    onCalendarClick cfg acts jfd onButton clientY calTop newId
      = acts ++ [⟨newId, "Quick Task", "Other",
          toHHMM (snapClamp (displayPositionToTime cfg (clientY - calTop))), 15⟩]
    ∧ (∃ k : Int, snapClamp (displayPositionToTime cfg (clientY - calTop)) = 15 * k
        ∧ 0 ≤ 15 * k ∧ 15 * k ≤ 23 * 60 + 45)
    ∧ (∀ k : Int,
        |((jsRound (displayPositionToTime cfg (clientY - calTop) / 15) * 15 : Int) : ℚ)
            - displayPositionToTime cfg (clientY - calTop)|
          ≤ |((15 * k : Int) : ℚ) - displayPositionToTime cfg (clientY - calTop)|) := by
  subst h1
  subst h2
  refine ⟨rfl, ?_, fun k => snap_nearest _ k⟩
  refine ⟨max 0 (min 95 (jsRound (displayPositionToTime cfg (clientY - calTop) / 15))), ?_, ?_, ?_⟩
  · unfold snapClamp
    omega
  · omega
  · omega

/-- Evaluation of `displayPositionToTime` at the pixel offset of the
quick-add scenario: position `734/3` under the default configuration is
14:07, that is 847 minutes. -/
lemma scenario_position_time :
    displayPositionToTime defaultSleepConfig ((734 : ℚ) / 3 - 0) = 847 := by
  have hS : sleepEndMin defaultSleepConfig = 480 := by decide
  have hA : awakeMinutes defaultSleepConfig = 900 := by decide
  have hC : calHeightPx defaultSleepConfig = 600 := by
    unfold calHeightPx
    rw [hA]
    norm_num
  unfold displayPositionToTime
  dsimp only
  rw [hS, hA, hC]
  have h1 : ((734 : ℚ) / 3 - 0) / 600 = 367 / 900 := by norm_num
  rw [h1]
  rw [min_eq_right (by norm_num : (367 : ℚ) / 900 ≤ 1),
    max_eq_right (by norm_num : (0 : ℚ) ≤ 367 / 900)]
  have h2 : (367 : ℚ) / 900 * ((900 : Int) : ℚ) = 367 := by push_cast; norm_num
  rw [h2]
  have h3 : ((480 : Int) : ℚ) + 367 = 847 := by push_cast; norm_num
  rw [h3]
  exact jsModQ_eq_self (by norm_num) (by norm_num)

/-- Snapping 14:07 to the quarter-hour grid gives 14:00 (840 minutes). -/
lemma scenario_snap :
    snapClamp (displayPositionToTime defaultSleepConfig ((734 : ℚ) / 3 - 0)) = 840 := by
  rw [scenario_position_time]
  unfold snapClamp jsRound
  have h1 : (847 : ℚ) / 15 + 1 / 2 = 1709 / 30 := by norm_num
  rw [h1]
  have h2 : ⌊(1709 : ℚ) / 30⌋ = 56 := by
    rw [Int.floor_eq_iff] <;> norm_num
  rw [h2]
  decide

/-- C9 witness, the scenario of the specification: a click at the pixel
position mapping to 14:07 creates a Quick Task starting 14:00, 15 minutes. -/
theorem quickAdd_creates_activity_witness :
    onCalendarClick defaultSleepConfig [] false false ((734 : ℚ) / 3) 0 "q1"
      = [⟨"q1", "Quick Task", "Other", ⟨14, 0⟩, 15⟩] := by
  have h := (quickAdd_creates_activity defaultSleepConfig [] false false
    ((734 : ℚ) / 3) 0 "q1" rfl rfl).1
  rw [h, scenario_snap]
  decide

/-- A focus-session record `{startTime, endTime, activityId}`. -/
structure FocusSession where
  startTime : Int
  endTime : Int
  activityId : Option String
deriving DecidableEq, Repr

/-- The timer state object persisted by the component. -/
structure TimerState where
  isRunning : Bool
  isPaused : Bool
  elapsedTime : Int
  baseElapsedTime : Int
  startTime : Option Int
  activityId : Option String
  targetDuration : Int
  focusSessions : List FocusSession
deriving DecidableEq, Repr

/-- The initial (and reset) timer state of the source. -/
def initialTimerState : TimerState := ⟨false, false, 0, 0, none, none, 0, []⟩

/-- The timer update effect, one periodic recomputation at wall-clock time
`nowMs`: while running (guard `isRunning && !isPaused && startTime`, the
last conjunct being JavaScript truthiness), recompute
`baseElapsedTime + Math.floor((now - startTime)/1000)`; store it if changed;
if a positive target is reached, stop the timer, clamp both elapsed fields
to the target and fire the completion notification (the `Bool` result). -/
def timerTick (s : TimerState) (nowMs : Int) : TimerState × Bool :=
  match s.startTime with
  | some st =>
    if s.isRunning = true ∧ s.isPaused = false ∧ st ≠ 0 then
      let sessionElapsed := Int.fdiv (nowMs - st) 1000
      let totalElapsed := s.baseElapsedTime + sessionElapsed
      let s1 := if totalElapsed ≠ s.elapsedTime then { s with elapsedTime := totalElapsed } else s
      if 0 < s.targetDuration ∧ s.targetDuration ≤ totalElapsed then
        ({ s1 with
            isRunning := false
            isPaused := false
            elapsedTime := s1.targetDuration
            baseElapsedTime := s1.targetDuration }, true)
      else (s1, false)
    else (s, false)
  | none => (s, false)

/-- A run of periodic recomputations; the second component counts how many
completion notifications fired. -/
def runTimerTicks (s : TimerState) (ts : List Int) : TimerState × Nat :=
  ts.foldl (fun acc t =>
    let r := timerTick acc.1 t
    (r.1, acc.2 + (if r.2 then 1 else 0))) (s, 0)

/-- Source `startTimer(activityId, customDurationMinutes)`: target is the
custom duration in seconds when given (and nonzero — JavaScript truthiness),
else the duration of the looked-up activity, else `0`; elapsed time restarts
from zero exactly when the tracked activity changes. -/
def startTimer (activities : List Activity) (prev : TimerState)
    (activityId : Option String) (customDurationMinutes : Option Int)
    (nowMs : Int) : TimerState :=
  let activity : Option Activity :=
    match activityId with
    | some i => activities.find? (fun a => a.id = i)
    | none => none
  let fallbackTarget : Int :=
    match activity with
    | some a => a.duration * 60
    | none => 0
  let targetDurationSeconds : Int :=
    match customDurationMinutes with
    | some c => if c = 0 then fallbackTarget else c * 60
    | none => fallbackTarget
  let isNewActivity := prev.activityId ≠ activityId
  let baseTime := if isNewActivity then 0 else prev.elapsedTime
  { prev with
      isRunning := true
      isPaused := false
      startTime := some nowMs
      activityId := activityId
      targetDuration := targetDurationSeconds
      elapsedTime := baseTime
      baseElapsedTime := baseTime }

/-- Source `pauseTimer`: freezes the elapsed time into the base and, in
focus mode with a truthy `startTime`, records a focus session ending now. -/
def pauseTimer (focusEnabled : Bool) (prev : TimerState) (nowMs : Int) : TimerState :=
  let updatedSessions :=
    match prev.startTime with
    | some st =>
      if focusEnabled = true ∧ st ≠ 0
      then prev.focusSessions ++ [⟨st, nowMs, prev.activityId⟩]
      else prev.focusSessions
    | none => prev.focusSessions
  { prev with
      isPaused := true
      isRunning := false
      baseElapsedTime := prev.elapsedTime
      focusSessions := updatedSessions }

/-- Source `resumeTimer`: restart the session clock, keep the base. -/
def resumeTimer (prev : TimerState) (nowMs : Int) : TimerState :=
  { prev with
      isRunning := true
      isPaused := false
      startTime := some nowMs
      baseElapsedTime := prev.elapsedTime }

/-- Source `stopTimer`: record a focus session like `pauseTimer` does, then
reset the whole timer to its zero state keeping only the session history. -/
def stopTimer (focusEnabled : Bool) (prev : TimerState) (nowMs : Int) : TimerState :=
  let updatedSessions :=
    match prev.startTime with
    | some st =>
      if focusEnabled = true ∧ st ≠ 0
      then prev.focusSessions ++ [⟨st, nowMs, prev.activityId⟩]
      else prev.focusSessions
    | none => prev.focusSessions
  { isRunning := false
    isPaused := false
    elapsedTime := 0
    baseElapsedTime := 0
    startTime := none
    activityId := none
    targetDuration := 0
    focusSessions := updatedSessions }

lemma timerTick_not_running {s : TimerState} (h : s.isRunning = false) (t : Int) :
    timerTick s t = (s, false) := by
  unfold timerTick
  rcases hst : s.startTime with _ | st
  · rfl
  · dsimp only
    rw [if_neg]
    intro hcon
    rw [h] at hcon
    exact absurd hcon.1 (by simp)

lemma runTimerTicks_foldl_not_running {s : TimerState} (h : s.isRunning = false)
    (ts : List Int) (n : Nat) :
    ts.foldl (fun acc t =>
      let r := timerTick acc.1 t
      (r.1, acc.2 + (if r.2 then 1 else 0))) (s, n) = (s, n) := by
  induction ts with
  | nil => rfl
  | cons t ts ih =>
    rw [List.foldl_cons]
    simp only [timerTick_not_running h]
    simpa using ih

lemma timerTick_fields (s : TimerState) (t : Int) :
    (timerTick s t).1.startTime = s.startTime
    ∧ (timerTick s t).1.activityId = s.activityId
    ∧ (timerTick s t).1.focusSessions = s.focusSessions := by
  unfold timerTick
  rcases hst : s.startTime with _ | st
  · exact ⟨hst, rfl, rfl⟩
  · dsimp only
    split_ifs <;> simp [hst]

/-- Periodic recomputations never touch `startTime`, `activityId` or the
focus-session history. -/
lemma runTimerTicks_fields (ts : List Int) :
    ∀ (s : TimerState) (n : Nat),
      (ts.foldl (fun acc t =>
        let r := timerTick acc.1 t
        (r.1, acc.2 + (if r.2 then 1 else 0))) (s, n)).1.startTime = s.startTime
      ∧ (ts.foldl (fun acc t =>
          let r := timerTick acc.1 t
          (r.1, acc.2 + (if r.2 then 1 else 0))) (s, n)).1.activityId = s.activityId
      ∧ (ts.foldl (fun acc t =>
          let r := timerTick acc.1 t
          (r.1, acc.2 + (if r.2 then 1 else 0))) (s, n)).1.focusSessions = s.focusSessions := by
  induction ts with
  | nil => intro s n; exact ⟨rfl, rfl, rfl⟩
  | cons t ts ih =>
    intro s n
    rw [List.foldl_cons]
    obtain ⟨h1, h2, h3⟩ := timerTick_fields s t
    obtain ⟨g1, g2, g3⟩ := ih (timerTick s t).1 (n + (if (timerTick s t).2 then 1 else 0))
    exact ⟨by rw [← h1]; exact g1, by rw [← h2]; exact g2, by rw [← h3]; exact g3⟩

/-- C4: from a running, unpaused state with a positive target and a truthy
start timestamp, a run of periodic recomputations containing a tick whose
recomputed total reaches the target leaves the timer stopped (both flags
false), both elapsed fields clamped to exactly the target, and fires the
completion notification exactly once. -/
theorem timerAutoComplete (s : TimerState) (ts : List Int) (st : Int)
    (hrun : s.isRunning = true) (hp : s.isPaused = false)
    (hst : s.startTime = some st) (hst0 : st ≠ 0) (htgt : 0 < s.targetDuration)
    (hqual : ∃ t ∈ ts, s.targetDuration ≤ s.baseElapsedTime + Int.fdiv (t - st) 1000) :
    (runTimerTicks s ts).1.isRunning = false
    ∧ (runTimerTicks s ts).1.isPaused = false
    ∧ (runTimerTicks s ts).1.elapsedTime = s.targetDuration
    ∧ (runTimerTicks s ts).1.baseElapsedTime = s.targetDuration
    ∧ (runTimerTicks s ts).2 = 1 := by
  induction ts generalizing s with
  | nil => exact absurd hqual (by simp)
  | cons t ts ih =>
    unfold runTimerTicks
    rw [List.foldl_cons]
    by_cases hq : s.targetDuration ≤ s.baseElapsedTime + Int.fdiv (t - st) 1000
    · have htick : timerTick s t =
          ({ s with
              isRunning := false
              isPaused := false
              elapsedTime := s.targetDuration
              baseElapsedTime := s.targetDuration }, true) := by
        unfold timerTick
        rw [hst]
        dsimp only
        rw [if_pos ⟨hrun, hp, hst0⟩, if_pos ⟨htgt, hq⟩]
        split_ifs <;> simp [hst]
      simp only [htick]
      rw [runTimerTicks_foldl_not_running rfl]
      exact ⟨rfl, rfl, rfl, rfl, rfl⟩
    · have htick : timerTick s t =
          ((if s.baseElapsedTime + Int.fdiv (t - st) 1000 ≠ s.elapsedTime
            then { s with elapsedTime := s.baseElapsedTime + Int.fdiv (t - st) 1000 }
            else s), false) := by
        unfold timerTick
        rw [hst]
        dsimp only
        rw [if_pos ⟨hrun, hp, hst0⟩, if_neg (fun hcon => hq hcon.2)]
      simp only [htick]
      have hmem : ∃ t2 ∈ ts, s.targetDuration ≤ s.baseElapsedTime + Int.fdiv (t2 - st) 1000 := by
        obtain ⟨t2, ht2, hq2⟩ := hqual
        rcases List.mem_cons.mp ht2 with ht2 | ht2
        · subst ht2; exact absurd hq2 hq
        · exact ⟨t2, ht2, hq2⟩
      by_cases hchg : s.baseElapsedTime + Int.fdiv (t - st) 1000 ≠ s.elapsedTime
      · rw [if_pos hchg]
        have h := ih { s with elapsedTime := s.baseElapsedTime + Int.fdiv (t - st) 1000 }
          hrun hp hst htgt hmem
        simpa [runTimerTicks] using h
      · rw [if_neg hchg]
        have h := ih s hrun hp hst htgt hmem
        simpa [runTimerTicks] using h

/-- Input state of the C4 witness: the timer started at millisecond 17000
for a 5-minute (300-second) target with no tracked activity. -/
def c4StartState : TimerState := startTimer [] initialTimerState none (some 5) 17000

/-- The 301 one-second ticks of the C4 witness scenario. -/
def c4Ticks : List Int := (List.range 301).map (fun i => 17000 + 1000 * ((i : Int) + 1))

/-- C4 witness, the scenario of the specification: a timer with
`targetSeconds = 300` run through 301 one-second ticks ends stopped at
exactly 300 elapsed seconds with one completion notification. -/
theorem timerAutoComplete_witness :
    (runTimerTicks c4StartState c4Ticks).1.isRunning = false
    ∧ (runTimerTicks c4StartState c4Ticks).1.isPaused = false
    ∧ (runTimerTicks c4StartState c4Ticks).1.elapsedTime = 300
    ∧ (runTimerTicks c4StartState c4Ticks).1.baseElapsedTime = 300
    ∧ (runTimerTicks c4StartState c4Ticks).2 = 1 := by
  have h := timerAutoComplete c4StartState c4Ticks 17000 rfl rfl rfl (by decide) (by decide)
    ⟨317000, by decide, by decide⟩
  exact ⟨h.1, h.2.1, h.2.2.1.trans (by decide), h.2.2.2.1.trans (by decide), h.2.2.2.2⟩

lemma pauseTimer_sessions (f : Bool) (prev : TimerState) (nowMs st : Int)
    (h : prev.startTime = some st) (hne : st ≠ 0) :
    (pauseTimer f prev nowMs).focusSessions
      = if f then prev.focusSessions ++ [⟨st, nowMs, prev.activityId⟩]
        else prev.focusSessions := by
  unfold pauseTimer
  rw [h]
  rcases f with _ | _ <;> simp [hne]

lemma stopTimer_sessions (f : Bool) (prev : TimerState) (nowMs st : Int)
    (h : prev.startTime = some st) (hne : st ≠ 0) :
    (stopTimer f prev nowMs).focusSessions
      = if f then prev.focusSessions ++ [⟨st, nowMs, prev.activityId⟩]
        else prev.focusSessions := by
  unfold stopTimer
  rw [h]
  rcases f with _ | _ <;> simp [hne]

/-- The start, wait, pause, wait, resume, wait, stop operation sequence of
claim C5, with the wall-clock instants and the focus-mode flag observed at
the pause and at the stop transitions as parameters. -/
def timerScenario (acts : List Activity) (prev : TimerState)
    (aid : Option String) (custom : Option Int)
    (t0 : Int) (ticks1 : List Int) (fp : Bool) (t1 : Int) (ticks2 : List Int)
    (t2 : Int) (ticks3 : List Int) (fs : Bool) (t3 : Int) : TimerState :=
  let s1 := startTimer acts prev aid custom t0
  let s2 := (runTimerTicks s1 ticks1).1
  let s3 := pauseTimer fp s2 t1
  let s4 := (runTimerTicks s3 ticks2).1
  let s5 := resumeTimer s4 t2
  let s6 := (runTimerTicks s5 ticks3).1
  stopTimer fs s6 t3

/-- C5: the start-pause-resume-stop sequence appends exactly one focus
session per pause or stop transition taken while focus mode was enabled
(none otherwise); the new records are within bounds and pairwise
non-overlapping with non-decreasing timestamps. -/
theorem focusSessions_record (acts : List Activity) (prev : TimerState)
    (aid : Option String) (custom : Option Int)
    (t0 : Int) (ticks1 : List Int) (fp : Bool) (t1 : Int) (ticks2 : List Int)
    (t2 : Int) (ticks3 : List Int) (fs : Bool) (t3 : Int)
    (h0 : 0 < t0) (h01 : t0 ≤ t1) (h12 : t1 ≤ t2) (h23 : t2 ≤ t3) :
    (timerScenario acts prev aid custom t0 ticks1 fp t1 ticks2 t2 ticks3 fs t3).focusSessions
      = prev.focusSessions
        ++ (if fp then [(⟨t0, t1, aid⟩ : FocusSession)] else [])
        ++ (if fs then [(⟨t2, t3, aid⟩ : FocusSession)] else [])
    ∧ (∀ r ∈ ((if fp then [(⟨t0, t1, aid⟩ : FocusSession)] else [])
          ++ (if fs then [(⟨t2, t3, aid⟩ : FocusSession)] else [])),
        r.startTime ≤ r.endTime)
    ∧ List.Chain' (fun r1 r2 => r1.endTime ≤ r2.startTime)
        ((if fp then [(⟨t0, t1, aid⟩ : FocusSession)] else [])
          ++ (if fs then [(⟨t2, t3, aid⟩ : FocusSession)] else [])) := by
  obtain ⟨h2a, h2b, h2c⟩ :=
    runTimerTicks_fields ticks1 (startTimer acts prev aid custom t0) 0
  have hs2start : (runTimerTicks (startTimer acts prev aid custom t0) ticks1).1.startTime
      = some t0 := h2a.trans rfl
  have hs2aid : (runTimerTicks (startTimer acts prev aid custom t0) ticks1).1.activityId
      = aid := h2b.trans rfl
  have hs2fs : (runTimerTicks (startTimer acts prev aid custom t0) ticks1).1.focusSessions
      = prev.focusSessions := h2c.trans rfl
  have hp3 : (pauseTimer fp (runTimerTicks (startTimer acts prev aid custom t0) ticks1).1
        t1).focusSessions
      = prev.focusSessions ++ (if fp then [(⟨t0, t1, aid⟩ : FocusSession)] else []) := by
    rw [pauseTimer_sessions fp _ t1 t0 hs2start (by omega), hs2fs, hs2aid]
    rcases fp with _ | _ <;> simp
  have habs2 : runTimerTicks (pauseTimer fp
        (runTimerTicks (startTimer acts prev aid custom t0) ticks1).1 t1) ticks2
      = (pauseTimer fp (runTimerTicks (startTimer acts prev aid custom t0) ticks1).1 t1, 0) :=
    runTimerTicks_foldl_not_running rfl ticks2 0
  obtain ⟨h6a, h6b, h6c⟩ := runTimerTicks_fields ticks3
    (resumeTimer (runTimerTicks (pauseTimer fp
      (runTimerTicks (startTimer acts prev aid custom t0) ticks1).1 t1) ticks2).1 t2) 0
  have hs6start : (runTimerTicks (resumeTimer (runTimerTicks (pauseTimer fp
        (runTimerTicks (startTimer acts prev aid custom t0) ticks1).1 t1) ticks2).1 t2)
        ticks3).1.startTime = some t2 := h6a.trans rfl
  have hs6aid : (runTimerTicks (resumeTimer (runTimerTicks (pauseTimer fp
        (runTimerTicks (startTimer acts prev aid custom t0) ticks1).1 t1) ticks2).1 t2)
        ticks3).1.activityId = aid := by
    refine h6b.trans ?_
    show (runTimerTicks (pauseTimer fp
      (runTimerTicks (startTimer acts prev aid custom t0) ticks1).1 t1) ticks2).1.activityId = aid
    rw [habs2]
    exact hs2aid
  have hs6fs : (runTimerTicks (resumeTimer (runTimerTicks (pauseTimer fp
        (runTimerTicks (startTimer acts prev aid custom t0) ticks1).1 t1) ticks2).1 t2)
        ticks3).1.focusSessions
      = prev.focusSessions ++ (if fp then [(⟨t0, t1, aid⟩ : FocusSession)] else []) := by
    refine h6c.trans ?_
    show (runTimerTicks (pauseTimer fp
      (runTimerTicks (startTimer acts prev aid custom t0) ticks1).1 t1) ticks2).1.focusSessions
      = prev.focusSessions ++ (if fp then [(⟨t0, t1, aid⟩ : FocusSession)] else [])
    rw [habs2]
    exact hp3
  refine ⟨?_, ?_, ?_⟩
  · unfold timerScenario
    dsimp only
    rw [stopTimer_sessions fs _ t3 t2 hs6start (by omega), hs6fs, hs6aid]
    rcases fs with _ | _ <;> simp
  · intro r hr
    rcases fp with _ | _ <;> rcases fs with _ | _ <;> simp at hr <;>
      first
      | (rcases hr with hr | hr <;> subst hr <;> dsimp only <;> omega)
      | (subst hr; dsimp only; omega)
  · rcases fp with _ | _ <;> rcases fs with _ | _ <;>
      simp [List.chain'_cons, List.chain'_singleton] <;> omega

/-- C5 witness: with focus mode enabled at both transitions and instants
5, 6, 7, 8, exactly the two sessions `[5,6]` and `[7,8]` are recorded. -/
theorem focusSessions_record_witness :
    (timerScenario [] initialTimerState none none 5 [] true 6 [] 7 [] true 8).focusSessions
      = initialTimerState.focusSessions
        ++ (if true then [(⟨5, 6, none⟩ : FocusSession)] else [])
        ++ (if true then [(⟨7, 8, none⟩ : FocusSession)] else [])
    ∧ (∀ r ∈ ((if true then [(⟨5, 6, none⟩ : FocusSession)] else [])
          ++ (if true then [(⟨7, 8, none⟩ : FocusSession)] else [])),
        r.startTime ≤ r.endTime)
    ∧ List.Chain' (fun r1 r2 => r1.endTime ≤ r2.startTime)
        ((if true then [(⟨5, 6, none⟩ : FocusSession)] else [])
          ++ (if true then [(⟨7, 8, none⟩ : FocusSession)] else [])) :=
  focusSessions_record [] initialTimerState none none 5 [] true 6 [] 7 [] true 8
    (by decide) (by decide) (by decide) (by decide)

/-- The five operations of the focus-timer state machine. -/
inductive TimerOp where
  | startOp (activityId : Option String) (customDurationMinutes : Option Int) (nowMs : Int)
  | pauseOp (focusEnabled : Bool) (nowMs : Int)
  | resumeOp (nowMs : Int)
  | stopOp (focusEnabled : Bool) (nowMs : Int)
  | tickOp (nowMs : Int)
deriving DecidableEq, Repr

/-- Dispatch one timer operation (the tick discards its notification flag). -/
def applyTimerOp (acts : List Activity) (s : TimerState) : TimerOp → TimerState
  | TimerOp.startOp aid custom now => startTimer acts s aid custom now
  | TimerOp.pauseOp f now => pauseTimer f s now
  | TimerOp.resumeOp now => resumeTimer s now
  | TimerOp.stopOp f now => stopTimer f s now
  | TimerOp.tickOp now => (timerTick s now).1

lemma applyTimerOp_flags (acts : List Activity) (s : TimerState) (op : TimerOp)
    (h : s.isRunning = false ∨ s.isPaused = false) :
    (applyTimerOp acts s op).isRunning = false
    ∨ (applyTimerOp acts s op).isPaused = false := by
  rcases op with ⟨aid, custom, now⟩ | ⟨f, now⟩ | now | ⟨f, now⟩ | now
  · exact Or.inr rfl
  · exact Or.inl rfl
  · exact Or.inr rfl
  · exact Or.inl rfl
  · show (timerTick s now).1.isRunning = false ∨ (timerTick s now).1.isPaused = false
    unfold timerTick
    rcases hst : s.startTime with _ | st
    · exact h
    · dsimp only
      by_cases h1 : s.isRunning = true ∧ s.isPaused = false ∧ st ≠ 0
      · rw [if_pos h1]
        by_cases h2 : 0 < s.targetDuration
            ∧ s.targetDuration ≤ s.baseElapsedTime + Int.fdiv (now - st) 1000
        · rw [if_pos h2]
          exact Or.inl rfl
        · rw [if_neg h2]
          right
          split_ifs <;> exact h1.2.1
      · rw [if_neg h1]
        exact h

lemma applyTimerOp_foldl_flags (acts : List Activity) (ops : List TimerOp) :
    ∀ s : TimerState, (s.isRunning = false ∨ s.isPaused = false) →
      ((ops.foldl (applyTimerOp acts) s).isRunning = false
        ∨ (ops.foldl (applyTimerOp acts) s).isPaused = false) := by
  induction ops with
  | nil => intro s h; exact h
  | cons op ops ih =>
    intro s h
    rw [List.foldl_cons]
    exact ih _ (applyTimerOp_flags acts s op h)

/-- C7: every timer operation maps a state with at most one of the two
activity flags set to a state with at most one set, and every state
reachable from the initial state by a sequence of operations has at most
one flag set. -/
theorem timerFlags_invariant (acts : List Activity) (s : TimerState) (op : TimerOp)
    (h : s.isRunning = false ∨ s.isPaused = false) :
    ((applyTimerOp acts s op).isRunning = false
      ∨ (applyTimerOp acts s op).isPaused = false)
    ∧ ∀ ops : List TimerOp,
        ((ops.foldl (applyTimerOp acts) initialTimerState).isRunning = false
          ∨ (ops.foldl (applyTimerOp acts) initialTimerState).isPaused = false) :=
  ⟨applyTimerOp_flags acts s op h,
    fun ops => applyTimerOp_foldl_flags acts ops initialTimerState (Or.inl rfl)⟩

/-- C7 witness: pausing the initial state keeps the invariant, and every
operation sequence from the initial state does. -/
theorem timerFlags_invariant_witness :
    ((applyTimerOp [] initialTimerState (TimerOp.pauseOp false 5)).isRunning = false
      ∨ (applyTimerOp [] initialTimerState (TimerOp.pauseOp false 5)).isPaused = false)
    ∧ ∀ ops : List TimerOp,
        ((ops.foldl (applyTimerOp []) initialTimerState).isRunning = false
          ∨ (ops.foldl (applyTimerOp []) initialTimerState).isPaused = false) :=
  timerFlags_invariant [] initialTimerState (TimerOp.pauseOp false 5) (Or.inl rfl)

/-- The messages `validate` can push, by position in the source; the overlap
message carries the number of overlapping activities it reports. -/
inductive ValidationMessage where
  | startRequired
  | durationPositive
  | endsAfterMidnight
  | overlapWarning (count : Nat)
deriving DecidableEq, Repr

/-- The add/edit form: `{id, title, category, start, duration}`. -/
structure FormState where
  id : Option String
  title : String
  category : String
  start : HHMM
  duration : Int
deriving DecidableEq, Repr

/-- The strict pattern test of the source: a rendered start string matches
the regular expression of two digits, a colon and two digits exactly when
both numeric fields lie in `[0, 99]`. -/
def isValidStart (t : HHMM) : Bool :=
  decide (0 ≤ t.hh ∧ t.hh ≤ 99 ∧ 0 ≤ t.mm ∧ t.mm ≤ 99)

/-- Source `validate(form, all)`: accumulates, in order, the bad-start
message, the non-positive-duration message, the crosses-midnight message,
and the overlap message (counting every other activity whose interval
overlaps the form interval, the edited activity itself excluded).  All
messages land in the one returned list. -/
def validate (form : FormState) (all : List Activity) : List ValidationMessage :=
  let overlaps := all.filter (fun a =>
    match form.id with
    | some fid =>
      if a.id = fid then false
      else decide (0 < overlapMins (toMinutes a.start) (toMinutes a.start + a.duration)
        (toMinutes form.start) (toMinutes form.start + form.duration))
    | none => decide (0 < overlapMins (toMinutes a.start) (toMinutes a.start + a.duration)
        (toMinutes form.start) (toMinutes form.start + form.duration)))
  (if isValidStart form.start = false then [ValidationMessage.startRequired] else [])
    ++ (if form.duration ≤ 0 then [ValidationMessage.durationPositive] else [])
    ++ (if toMinutes form.start + form.duration > 24 * 60
        then [ValidationMessage.endsAfterMidnight] else [])
    ++ (if overlaps.length ≠ 0 then [ValidationMessage.overlapWarning overlaps.length] else [])

/-- Source `onSubmit`: blocks the mutation whenever `validate` returned a
non-empty list (the alert-and-return path); otherwise edits in place when
the form carries an id, else appends a new activity under a fresh id. -/
def onSubmit (form : FormState) (activities : List Activity) (newId : String) : List Activity :=
  if validate form activities ≠ [] then activities
  else
    match form.id with
    | some fid => activities.map (fun a =>
        if a.id = fid then ⟨fid, form.title, form.category, form.start, form.duration⟩ else a)
    | none => activities ++ [⟨newId, form.title, form.category, form.start, form.duration⟩]

/-- The pre-existing activity of the C3 failing input. -/
def c3Existing : Activity := ⟨"a1", "Work", "Work", ⟨9, 30⟩, 480⟩

/-- The C3 failing input: a well-formed form (valid start, positive
duration, no midnight crossing) overlapping the existing activity. -/
def c3Form : FormState := ⟨none, "Call", "Work", ⟨9, 0⟩, 60⟩

/-- C3: the code contradicts the claim (and its own soft-warning comment):
for a form passing every hard check, the overlap detector contributes the
only entry of the validation list, and `onSubmit` then rejects the
mutation — the activity list is returned unchanged, no append happens. -/
theorem overlapWarning_blocks_submit :
    isValidStart c3Form.start = true
    ∧ 0 < c3Form.duration
    ∧ toMinutes c3Form.start + c3Form.duration ≤ 24 * 60
    ∧ validate c3Form [c3Existing] = [ValidationMessage.overlapWarning 1]
    ∧ onSubmit c3Form [c3Existing] "new1" = [c3Existing] := by
  refine ⟨by decide, by decide, by decide, by decide, by decide⟩

end Planner
